import Mathlib

/-!
Shallow embedding of the Deployment-Alert notification server
(the webhook-enabled Express server: signature verification, event
mapping, bounded notification store, SSE broadcast hub, and the two
ingestion endpoints), together with theorems settling the spec claims.

Bytes are modelled as `Nat` values below 256; machine words as `Nat`
reduced modulo 2 ^ 32 wherever the source wraps.
-/

namespace DeployAlert

/-! ## SHA-256 (the `crypto.createHmac('sha256', ...)` primitive)

The server delegates to Node's `crypto` library; the library's
HMAC-SHA256 is embedded here concretely (FIPS 180-4 / RFC 2104) so the
signature verifier can be evaluated on concrete inputs. -/

/-- 32-bit truncation. -/
def w32 (n : Nat) : Nat := n % 4294967296

/-- Right rotation of a 32-bit word. -/
def rotr32 (n x : Nat) : Nat :=
  w32 ((x >>> n) ||| (x <<< (32 - n)))

def shaCh (x y z : Nat) : Nat := (x &&& y) ^^^ ((4294967295 - x) &&& z)

def shaMaj (x y z : Nat) : Nat := (x &&& y) ^^^ (x &&& z) ^^^ (y &&& z)

def bigSigma0 (x : Nat) : Nat := rotr32 2 x ^^^ rotr32 13 x ^^^ rotr32 22 x

def bigSigma1 (x : Nat) : Nat := rotr32 6 x ^^^ rotr32 11 x ^^^ rotr32 25 x

def smallSigma0 (x : Nat) : Nat := rotr32 7 x ^^^ rotr32 18 x ^^^ (x >>> 3)

def smallSigma1 (x : Nat) : Nat := rotr32 17 x ^^^ rotr32 19 x ^^^ (x >>> 10)

/-- The 64 SHA-256 round constants (FIPS 180-4, in decimal). -/
def shaK : List Nat :=
  [1116352408, 1899447441, 3049323471, 3921009573, 961987163,
   1508970993, 2453635748, 2870763221, 3624381080, 310598401,
   607225278, 1426881987, 1925078388, 2162078206, 2614888103,
   3248222580, 3835390401, 4022224774, 264347078, 604807628,
   770255983, 1249150122, 1555081692, 1996064986, 2554220882,
   2821834349, 2952996808, 3210313671, 3336571891, 3584528711,
   113926993, 338241895, 666307205, 773529912, 1294757372,
   1396182291, 1695183700, 1986661051, 2177026350, 2456956037,
   2730485921, 2820302411, 3259730800, 3345764771, 3516065817,
   3600352804, 4094571909, 275423344, 430227734, 506948616,
   659060556, 883997877, 958139571, 1322822218, 1537002063,
   1747873779, 1955562222, 2024104815, 2227730452, 2361852424,
   2428436474, 2756734187, 3204031479, 3329325298]

/-- The eight 32-bit working registers of the compression function. -/
structure Regs where
  a : Nat
  b : Nat
  c : Nat
  d : Nat
  e : Nat
  f : Nat
  g : Nat
  h : Nat
  deriving Repr, DecidableEq

/-- The eight SHA-256 initial hash values (FIPS 180-4, in decimal). -/
def initRegs : Regs :=
  ⟨1779033703, 3144134277, 1013904242, 2773480762,
   1359893119, 2600822924, 528734635, 1541459225⟩

/-- Big-endian bytes of a 64-bit quantity. -/
def bytes64 (n : Nat) : List Nat :=
  [n >>> 56 % 256, n >>> 48 % 256, n >>> 40 % 256, n >>> 32 % 256,
   n >>> 24 % 256, n >>> 16 % 256, n >>> 8 % 256, n % 256]

/-- SHA-256 message padding: append 0x80, zeros to 56 mod 64, then the
bit length as 8 big-endian bytes. -/
def shaPad (msg : List Nat) : List Nat :=
  msg ++ 128 :: List.replicate ((119 - msg.length % 64) % 64) 0
      ++ bytes64 (8 * msg.length)

/-- Group bytes four at a time into big-endian 32-bit words. -/
def bytesToWords : List Nat → List Nat
  | b0 :: b1 :: b2 :: b3 :: rest =>
      (b0 <<< 24 ||| b1 <<< 16 ||| b2 <<< 8 ||| b3) :: bytesToWords rest
  | _ => []

/-- Split into 64-byte blocks; the fuel bounds the number of blocks and
is sufficient whenever it is at least the list length. -/
def blocksAux : Nat → List Nat → List (List Nat)
  | 0, _ => []
  | _, [] => []
  | fuel + 1, l@(_ :: _) => l.take 64 :: blocksAux fuel (l.drop 64)

/-- Split the padded message into 64-byte blocks. -/
def blocks (l : List Nat) : List (List Nat) :=
  blocksAux l.length l

/-- Extend the 16 message-schedule words to 64, one word per step. -/
def extendW : Nat → List Nat → List Nat
  | 0, ws => ws
  | n + 1, ws =>
      let t := ws.length
      extendW n (ws ++ [w32 (smallSigma1 (ws.getD (t - 2) 0) + ws.getD (t - 7) 0
        + smallSigma0 (ws.getD (t - 15) 0) + ws.getD (t - 16) 0)])

/-- One SHA-256 round. -/
def shaRound (r : Regs) (k w : Nat) : Regs :=
  let t1 := w32 (r.h + bigSigma1 r.e + shaCh r.e r.f r.g + k + w)
  let t2 := w32 (bigSigma0 r.a + shaMaj r.a r.b r.c)
  ⟨w32 (t1 + t2), r.a, r.b, r.c, w32 (r.d + t1), r.e, r.f, r.g⟩

def shaRounds (r : Regs) : List (Nat × Nat) → Regs
  | [] => r
  | (k, w) :: rest => shaRounds (shaRound r k w) rest

/-- Compress one 64-byte block into the running hash state. -/
def shaCompress (r : Regs) (block : List Nat) : Regs :=
  let ws := extendW 48 (bytesToWords block)
  let r2 := shaRounds r (shaK.zip ws)
  ⟨w32 (r.a + r2.a), w32 (r.b + r2.b), w32 (r.c + r2.c), w32 (r.d + r2.d),
   w32 (r.e + r2.e), w32 (r.f + r2.f), w32 (r.g + r2.g), w32 (r.h + r2.h)⟩

/-- Big-endian bytes of a 32-bit word. -/
def wordBytes (w : Nat) : List Nat :=
  [w >>> 24 % 256, w >>> 16 % 256, w >>> 8 % 256, w % 256]

/-- SHA-256 digest of a byte sequence, as 32 bytes. -/
def sha256 (msg : List Nat) : List Nat :=
  let r := (blocks (shaPad msg)).foldl shaCompress initRegs
  wordBytes r.a ++ wordBytes r.b ++ wordBytes r.c ++ wordBytes r.d ++
  wordBytes r.e ++ wordBytes r.f ++ wordBytes r.g ++ wordBytes r.h

/-- HMAC-SHA256 (RFC 2104) of a message under a key, as 32 bytes. -/
def hmacSha256 (key msg : List Nat) : List Nat :=
  let k0 := if key.length > 64 then sha256 key else key
  let kp := k0 ++ List.replicate (64 - k0.length) 0
  sha256 ((kp.map (· ^^^ 92)) ++ sha256 ((kp.map (· ^^^ 54)) ++ msg))

/-! ## Hex encoding and the Node buffer/compare primitives

`Buffer.from(str, 'hex')` decodes two hex characters at a time and stops
at the first invalid pair (a lone trailing character is dropped).
`crypto.timingSafeEqual` throws when the two buffers differ in length,
otherwise returns byte equality. -/

/-- Value of a hex digit character, `none` for a non-hex character. -/
def hexDigitVal (c : Char) : Option Nat :=
  if 48 ≤ c.toNat ∧ c.toNat ≤ 57 then some (c.toNat - 48)
  else if 97 ≤ c.toNat ∧ c.toNat ≤ 102 then some (c.toNat - 87)
  else if 65 ≤ c.toNat ∧ c.toNat ≤ 70 then some (c.toNat - 55)
  else none

/-- Node hex decoding: pairs of hex digits, stopping at the first
invalid pair; a lone trailing character is ignored. -/
def hexDecode : List Char → List Nat
  | c0 :: c1 :: rest =>
      match hexDigitVal c0, hexDigitVal c1 with
      | some hi, some lo => (16 * hi + lo) :: hexDecode rest
      | _, _ => []
  | _ => []

/-- Lowercase hex digit for a value below 16. -/
def hexDigitChar (n : Nat) : Char :=
  if n < 10 then Char.ofNat (48 + n) else Char.ofNat (87 + n)

/-- Lowercase hex encoding of a byte list (the `digest('hex')` form). -/
def hexEncode (bs : List Nat) : String :=
  String.mk (bs.flatMap (fun b => [hexDigitChar (b / 16), hexDigitChar (b % 16)]))

/-- `crypto.timingSafeEqual`: throws (`error`) on a length mismatch,
otherwise reports byte equality. -/
def timingSafeEqual (x y : List Nat) : Except Unit Bool :=
  if x.length = y.length then .ok (decide (x = y)) else .error ()

/-- ASCII bytes of a string (all strings involved are ASCII). -/
def strBytes (s : String) : List Nat := s.data.map Char.toNat

/-- `verifyWebhookSignature(payload, signature)`: returns `false` when the
signature is absent or empty, otherwise hex-decodes both the claimed
signature and the expected HMAC-SHA256 hex digest and compares them with
`timingSafeEqual`, whose length-mismatch exception propagates. -/
def verifyWebhookSignature (secret : String) (payload : List Nat)
    (signature : Option String) : Except Unit Bool :=
  match signature with
  | none => .ok false
  | some s =>
      if s = "" then .ok false
      else
        let expected := hexEncode (hmacSha256 (strBytes secret) payload)
        timingSafeEqual (hexDecode s.data) (hexDecode expected.data)

/-! ## Webhook payload data model and the event mapper -/

structure ProjectInfo where
  pid : Option String
  name : Option String
  deriving Repr, DecidableEq

structure DeploymentInfo where
  did : Option String
  status : Option String
  url : Option String
  deriving Repr, DecidableEq

structure EnvironmentInfo where
  name : Option String
  deriving Repr, DecidableEq

/-- Parsed JSON body of a structured webhook request. -/
structure WebhookData where
  wtype : String
  project : Option ProjectInfo
  deployment : Option DeploymentInfo
  environment : Option EnvironmentInfo
  deriving Repr, DecidableEq

/-- JavaScript `a || d` on an optional string: the default is taken when
the value is `undefined` or the empty string (both falsy). -/
def jsOr (o : Option String) (d : String) : String :=
  match o with
  | none => d
  | some s => if s = "" then d else s

/-- JavaScript truthiness of an optional string. -/
def jsTruthy (o : Option String) : Bool :=
  match o with
  | none => false
  | some s => s ≠ ""

/-- The own properties of the `RAILWAY_EVENT_MAP` object literal: the
fixed table from provider event types to internal event kinds. -/
def railwayEventMapOwn (t : String) : Option String :=
  if t = "deployment.initialize" then some "initializing"
  else if t = "deployment.queued" then some "queued"
  else if t = "deployment.building" then some "building"
  else if t = "deployment.deploying" then some "deploying"
  else if t = "deployment.success" then some "deployment_success"
  else if t = "deployment.failed" then some "deployment_failure"
  else if t = "deployment.crashed" then some "service_crash"
  else if t = "deployment.sleeping" then some "sleeping"
  else if t = "deployment.removed" then some "removed"
  else if t = "deployment.skipped" then some "skipped"
  else none

/-- The property names of `Object.prototype`. A JavaScript bracket
lookup on a plain object literal walks the prototype chain, so a key
among these yields the inherited value (a function, or the prototype
object itself for proto), which is truthy and is not a string. -/
def objectProtoProps : List String :=
  ["constructor", "hasOwnProperty", "isPrototypeOf", "propertyIsEnumerable",
   "toLocaleString", "toString", "valueOf", "__proto__", "__defineGetter__",
   "__defineSetter__", "__lookupGetter__", "__lookupSetter__"]

/-- Outcome of the bracket lookup on the object literal: an own-property
hit, a truthy non-string value inherited from `Object.prototype`
(tagged with the property name it was found under), or `undefined`. -/
inductive JsLookup where
  | own (v : String)
  | inherited (name : String)
  | notFound
  deriving Repr, DecidableEq

/-- `RAILWAY_EVENT_MAP[t]` with prototype-chain semantics: own
properties first, then `Object.prototype`, else `undefined`. -/
def railwayEventMap (t : String) : JsLookup :=
  match railwayEventMapOwn t with
  | some v => .own v
  | none => if t ∈ objectProtoProps then .inherited t else .notFound

/-- The JavaScript value the server stores as the notification's event
kind: a string, or — when the provider type collides with an
`Object.prototype` property name — the truthy non-string inherited
value. -/
inductive EventKind where
  | str (s : String)
  | inheritedVal (name : String)
  deriving Repr, DecidableEq

/-- `RAILWAY_EVENT_MAP[type] || type`: an own hit (all table values are
nonempty strings, hence truthy) and an inherited value are both truthy
and win; only `undefined` falls back to the type string. -/
def normalizeEvent (t : String) : EventKind :=
  match railwayEventMap t with
  | .own v => .str v
  | .inherited n => .inheritedVal n
  | .notFound => .str t

/-- `generateEventMessage(type, deployment, environment)`: switch over the
original provider type, interpolating the environment name (default
"production") and, for success, the deployment URL when present. -/
def generateEventMessage (t : String) (deployment : Option DeploymentInfo)
    (environment : Option EnvironmentInfo) : String :=
  let env := jsOr (environment.bind EnvironmentInfo.name) "production"
  let url := deployment.bind DeploymentInfo.url
  if t = "deployment.initialize" then "Deployment initialized for " ++ env
  else if t = "deployment.queued" then "Deployment queued for " ++ env
  else if t = "deployment.building" then "Building deployment for " ++ env
  else if t = "deployment.deploying" then "Deploying to " ++ env
  else if t = "deployment.success" then
    if jsTruthy url then
      "Successfully deployed to " ++ env ++ " at " ++ url.getD ""
    else "Successfully deployed to " ++ env
  else if t = "deployment.failed" then "Deployment failed for " ++ env
  else if t = "deployment.crashed" then "Service crashed in " ++ env
  else if t = "deployment.sleeping" then "Service sleeping in " ++ env
  else if t = "deployment.removed" then "Deployment removed from " ++ env
  else if t = "deployment.skipped" then "Deployment skipped for " ++ env
  else t ++ " in " ++ env

/-! ## Notification store -/

/-- The `railwayData` bag attached to structured webhook notifications. -/
structure RailwayMeta where
  rtype : String
  projectId : Option String
  deploymentId : Option String
  environment : Option String
  status : Option String
  url : Option String
  deriving Repr, DecidableEq

/-- The unit of record. The event field holds the JS value computed by
the event normalization, which is not always a string. -/
structure Notification where
  id : Nat
  project : String
  event : EventKind
  timestamp : String
  message : String
  receivedAt : String
  isLegacy : Bool
  railwayData : Option RailwayMeta
  deriving Repr, DecidableEq

/-- `recentNotifications.unshift(n)` followed by truncation to the last
100 entries (`slice(0, 100)` when the length exceeds 100). -/
def appendStore (n : Notification) (s : List Notification) : List Notification :=
  let s2 := n :: s
  if s2.length > 100 then s2.take 100 else s2

/-- The store contents after a sequence of appends starting empty. -/
def runAppends (l : List Notification) : List Notification :=
  l.foldl (fun s n => appendStore n s) []

/-! ## Broadcast hub -/

/-- A registered SSE connection: its identity and whether a write to it
fails (a dead connection). -/
structure Client where
  cid : Nat
  dead : Bool
  deriving Repr, DecidableEq

/-- The `sseClients.forEach((client, index) => ...)` loop body of
`broadcastNotification`: visit indices `0 .. len-1` of the original
length, reading the element at the index afresh (an index at or past the
current length is skipped); a failed write runs `splice(index, 1)` on
the live array. Returns the surviving clients and the ids of the clients
the message was delivered to, in delivery order. -/
def broadcastAux : Nat → Nat → List Client → List Nat → List Client × List Nat
  | 0, _, cs, delivered => (cs, delivered)
  | fuel + 1, i, cs, delivered =>
      match cs[i]? with
      | none => broadcastAux fuel (i + 1) cs delivered
      | some c =>
          if c.dead then broadcastAux fuel (i + 1) (cs.eraseIdx i) delivered
          else broadcastAux fuel (i + 1) cs (delivered ++ [c.cid])

/-- `broadcastNotification`: iterate the registered clients, delivering
the framed message and pruning clients whose write throws. -/
def broadcastNotification (cs : List Client) : List Client × List Nat :=
  broadcastAux cs.length 0 cs []

/-! ## Server state and ingestion endpoints -/

structure ServerState where
  store : List Notification
  clients : List Client
  deriving Repr, DecidableEq

/-- Outcome of the `POST /webhook` handler: an HTTP response (status,
success flag, echoed notification), or an uncaught exception escaping
the handler. -/
inductive WebhookResult where
  | response (status : Nat) (success : Bool) (received : Option Notification)
  | thrown
  deriving Repr, DecidableEq

/-- The notification object built by the webhook handler. -/
def mkWebhookNotif (d : WebhookData) (nowMs : Nat) (nowIso : String) : Notification :=
  { id := nowMs
    project := jsOr (d.project.bind ProjectInfo.name) "Unknown Project"
    event := normalizeEvent d.wtype
    timestamp := nowIso
    message := generateEventMessage d.wtype d.deployment d.environment
    receivedAt := nowIso
    isLegacy := false
    railwayData := some
      { rtype := d.wtype
        projectId := d.project.bind ProjectInfo.pid
        deploymentId := d.deployment.bind DeploymentInfo.did
        environment := d.environment.bind EnvironmentInfo.name
        status := d.deployment.bind DeploymentInfo.status
        url := d.deployment.bind DeploymentInfo.url } }

/-- The post-authentication part of the webhook handler: parse the JSON
body (`parsed` is the outcome of `JSON.parse` on the raw payload), build
the notification, append it to the store, broadcast, respond 200. -/
def webhookProcess (parsed : Option WebhookData) (nowMs : Nat) (nowIso : String)
    (st : ServerState) : WebhookResult × ServerState × List Nat :=
  match parsed with
  | none => (.response 400 false none, st, [])
  | some d =>
      let n := mkWebhookNotif d nowMs nowIso
      let store2 := appendStore n st.store
      let bc := broadcastNotification st.clients
      (.response 200 true (some n), ⟨store2, bc.1⟩, bc.2)

/-- `app.post('/webhook')`: the guard
`if (WEBHOOK_SECRET && signature && !verifyWebhookSignature(...))`
rejects with 401 on a failed verification; an exception thrown by the
verifier escapes the handler. `sig` is the `x-railway-signature` header,
`payload` the raw body bytes, `parsed` the outcome of `JSON.parse` on
them. Returns the result, the new server state, and the ids of clients
the notification was delivered to. -/
def webhookHandler (secret : String) (sig : Option String) (payload : List Nat)
    (parsed : Option WebhookData) (nowMs : Nat) (nowIso : String)
    (st : ServerState) : WebhookResult × ServerState × List Nat :=
  if secret ≠ "" then
    match sig with
    | some s =>
        if s ≠ "" then
          match verifyWebhookSignature secret payload (some s) with
          | .error _ => (.thrown, st, [])
          | .ok true => webhookProcess parsed nowMs nowIso st
          | .ok false => (.response 401 false none, st, [])
        else webhookProcess parsed nowMs nowIso st
    | none => webhookProcess parsed nowMs nowIso st
  else webhookProcess parsed nowMs nowIso st

/-- Response of the legacy `/notify` endpoint. -/
structure NotifyResponse where
  status : Nat
  success : Bool
  received : Notification
  clientsNotified : Nat
  deriving Repr, DecidableEq

/-- `app.all('/notify')`: build a notification from optional query
parameters with defaults, append, broadcast, respond 200. -/
def notifyHandler (project event timestamp message : Option String)
    (nowMs : Nat) (nowIso : String) (st : ServerState) :
    NotifyResponse × ServerState × List Nat :=
  let n : Notification :=
    { id := nowMs
      project := jsOr project "Manual Notification"
      event := .str (jsOr event "unknown")
      timestamp := jsOr timestamp nowIso
      message := jsOr message ""
      receivedAt := nowIso
      isLegacy := true
      railwayData := none }
  let store2 := appendStore n st.store
  let bc := broadcastNotification st.clients
  ({ status := 200, success := true, received := n,
     clientsNotified := bc.1.length }, ⟨store2, bc.1⟩, bc.2)

/-- Framed messages written to an SSE connection. -/
inductive Frame where
  | connected (clientCount : Nat)
  | history (ns : List Notification)
  | notif (n : Notification)
  deriving Repr, DecidableEq

/-- `app.get('/events')`: register the connection, write the `connected`
frame with the post-registration count, then write the `history` frame
with the 5 most recent notifications only when the store is nonempty.
Returns the new state and the frames written to the new connection. -/
def subscribeHandler (st : ServerState) (newId : Nat) : ServerState × List Frame :=
  let clients2 := st.clients ++ [⟨newId, false⟩]
  let frames := Frame.connected clients2.length ::
    (if st.store.length > 0 then [Frame.history (st.store.take 5)] else [])
  (⟨st.store, clients2⟩, frames)

/-- Server state after a sequence of parameterless legacy `/notify`
requests observing the given `Date.now()` clock readings. -/
def runLegacy (nows : List Nat) : ServerState :=
  nows.foldl (fun st t => (notifyHandler none none none none t "" st).2.1) ⟨[], []⟩

/-- One ingestion request: a legacy `/notify` call with its optional
query parameters, or a structured `POST /webhook` call with its
signature header, raw body and parse outcome. -/
inductive Ingest where
  | legacy (project event timestamp message : Option String)
  | webhook (secret : String) (sig : Option String) (payload : List Nat)
      (parsed : Option WebhookData)
  deriving Repr

/-- Run one ingestion request against the server state; the second
component carries the `Date.now()` reading and the ISO timestamp the
request observes. -/
def ingestStep (st : ServerState) : Ingest × Nat × String → ServerState
  | (.legacy p e t m, nowMs, nowIso) =>
      (notifyHandler p e t m nowMs nowIso st).2.1
  | (.webhook secret sig payload parsed, nowMs, nowIso) =>
      (webhookHandler secret sig payload parsed nowMs nowIso st).2.1

/-- Server state after an arbitrary interleaving of legacy and webhook
ingestion requests, starting from the empty state. -/
def runIngest (reqs : List (Ingest × Nat × String)) : ServerState :=
  reqs.foldl ingestStep ⟨[], []⟩

/-- A sample parsed webhook body used by concrete witnesses. -/
def dSample : WebhookData := ⟨"deployment.success", none, none, none⟩

/-! ## Helper lemmas -/

/-- `append` inserts at the front and truncates to capacity 100. -/
theorem appendStore_eq (n : Notification) (s : List Notification) :
    appendStore n s = (n :: s).take 100 := by
  show (if (n :: s).length > 100 then (n :: s).take 100 else n :: s) = (n :: s).take 100
  split
  · rfl
  · next h => exact (List.take_of_length_le (by omega)).symm

theorem appendStore_length_le (n : Notification) (s : List Notification) :
    (appendStore n s).length ≤ 100 := by
  rw [appendStore_eq]
  simp [List.length_take]

theorem appendStore_map_id (n : Notification) (s : List Notification) :
    (appendStore n s).map Notification.id
      = (n.id :: s.map Notification.id).take 100 := by
  rw [appendStore_eq, List.map_take, List.map_cons]

theorem take_append_take {α : Type} (a b : List α) (k : Nat) :
    (a ++ b.take k).take k = (a ++ b).take k := by
  rw [List.take_append_eq_append_take, List.take_append_eq_append_take, List.take_take]
  congr 2
  exact Nat.min_eq_left (Nat.sub_le _ _)

theorem foldl_appendStore (l : List Notification) :
    ∀ s : List Notification, s.length ≤ 100 →
      l.foldl (fun acc n => appendStore n acc) s = (l.reverse ++ s).take 100 := by
  induction l with
  | nil =>
      intro s hs
      simp [List.take_of_length_le hs]
  | cons n rest ih =>
      intro s hs
      simp only [List.foldl_cons, List.reverse_cons, List.append_assoc,
        List.singleton_append]
      rw [ih (appendStore n s) (appendStore_length_le n s), appendStore_eq]
      exact take_append_take _ _ _

/-- The store is a `take 100` view of the reversed append sequence. -/
theorem runAppends_eq (l : List Notification) :
    runAppends l = l.reverse.take 100 := by
  rw [runAppends, foldl_appendStore l [] (by simp)]
  simp

/-- A SHA-256 digest is exactly 32 bytes. -/
theorem sha256_length (msg : List Nat) : (sha256 msg).length = 32 := by
  simp [sha256, wordBytes]

theorem mem_wordBytes_lt (w : Nat) : ∀ b ∈ wordBytes w, b < 256 := by
  intro b hb
  simp only [wordBytes, List.mem_cons, List.not_mem_nil, or_false] at hb
  rcases hb with rfl | rfl | rfl | rfl <;> exact Nat.mod_lt _ (by norm_num)

/-- Every SHA-256 digest byte is below 256. -/
theorem mem_sha256_lt (msg : List Nat) : ∀ b ∈ sha256 msg, b < 256 := by
  intro b hb
  simp only [sha256, List.mem_append] at hb
  rcases hb with ((((((h | h) | h) | h) | h) | h) | h) | h <;>
    exact mem_wordBytes_lt _ b h

theorem hmacSha256_length (key msg : List Nat) : (hmacSha256 key msg).length = 32 :=
  sha256_length _

theorem mem_hmacSha256_lt (key msg : List Nat) : ∀ b ∈ hmacSha256 key msg, b < 256 :=
  mem_sha256_lt _

theorem hexDigitVal_hexDigitChar (n : Nat) (h : n < 16) :
    hexDigitVal (hexDigitChar n) = some n := by
  interval_cases n <;> rfl

/-- Hex decoding inverts hex encoding on genuine byte lists. -/
theorem hexDecode_hexEncode (bs : List Nat) (h : ∀ b ∈ bs, b < 256) :
    hexDecode (hexEncode bs).data = bs := by
  induction bs with
  | nil => rfl
  | cons b rest ih =>
      have hb : b < 256 := h b (List.mem_cons_self b rest)
      have hrest : ∀ x ∈ rest, x < 256 := fun x hx => h x (List.mem_cons_of_mem b hx)
      have hdiv : b / 16 < 16 := by omega
      have hmod : b % 16 < 16 := Nat.mod_lt _ (by norm_num)
      simp only [hexEncode, List.flatMap_cons, List.cons_append, List.nil_append]
      show hexDecode (hexDigitChar (b / 16) :: hexDigitChar (b % 16) ::
        (rest.flatMap fun b => [hexDigitChar (b / 16), hexDigitChar (b % 16)])) = b :: rest
      rw [hexDecode, hexDigitVal_hexDigitChar _ hdiv, hexDigitVal_hexDigitChar _ hmod]
      dsimp only
      have hbval : 16 * (b / 16) + b % 16 = b := Nat.div_add_mod b 16
      rw [hbval]
      exact congrArg (List.cons b) (ih hrest)

/-- Hex encoding a nonempty byte list yields a nonempty string. -/
theorem hexEncode_ne_empty (b : Nat) (rest : List Nat) :
    hexEncode (b :: rest) ≠ "" := by
  intro h
  have : (hexEncode (b :: rest)).data = [] := by rw [h]
  simp [hexEncode] at this

/-- The length of the hex decoding of an encoded byte list. -/
theorem hexDecode_hexEncode_length (bs : List Nat) (h : ∀ b ∈ bs, b < 256) :
    (hexDecode (hexEncode bs).data).length = bs.length := by
  rw [hexDecode_hexEncode bs h]

/-! ## Claim theorems -/

/-- C1: the publish loop of `broadcastNotification` does NOT deliver to
every other registered connection when a write fails. Exhibit: with the
registry holding a dead client (id 0) and a healthy client (id 1), the
`forEach` + `splice` iteration removes the dead client and then skips
the healthy one, so the delivered-to list is empty even though client 1
stays registered. This contradicts the specified failure isolation
(removal while iterating must not skip other entries). -/
theorem broadcast_skips_after_prune :
    broadcastNotification [⟨0, true⟩, ⟨1, false⟩] = ([⟨1, false⟩], []) := rfl

/-- C2: the store keeps exactly the 100 most recently appended
notifications, newest-first. Every append places the new notification at
the front (truncating to 100, evicting the oldest when at capacity),
and any append sequence longer than 100 leaves exactly the 100 most
recent, newest-first. -/
theorem store_bounded_retention :
    (∀ (n : Notification) (s : List Notification),
        appendStore n s = (n :: s).take 100 ∧
        (appendStore n s).head? = some n ∧
        (s.length = 100 → appendStore n s = n :: s.dropLast)) ∧
    (∀ l : List Notification, 100 < l.length →
        runAppends l = l.reverse.take 100 ∧ (runAppends l).length = 100) := by
  constructor
  · intro n s
    refine ⟨appendStore_eq n s, ?_, ?_⟩
    · rw [appendStore_eq, show (100 : Nat) = 99 + 1 from rfl, List.take_succ_cons]
      rfl
    · intro hs
      rw [appendStore_eq, show (100 : Nat) = 99 + 1 from rfl, List.take_succ_cons,
        List.dropLast_eq_take, hs]
  · intro l hl
    refine ⟨runAppends_eq l, ?_⟩
    rw [runAppends_eq]
    simp only [List.length_take, List.length_reverse]
    omega

def sampleNotif (i : Nat) : Notification :=
  ⟨i, "p", .str "e", "t", "m", "r", true, none⟩

def bigList : List Notification := (List.range 101).map sampleNotif

/-- Witness for C2 at a concrete 101-element append sequence. -/
theorem store_bounded_retention_witness :
    100 < bigList.length ∧
    runAppends bigList = bigList.reverse.take 100 ∧
    (runAppends bigList).length = 100 :=
  ⟨by simp [bigList], store_bounded_retention.2 bigList (by simp [bigList])⟩

/-- The notification the legacy endpoint builds for a parameterless
request observing clock reading `t` (with an empty ISO timestamp). -/
def legacyNotif (t : Nat) : Notification :=
  ⟨t, "Manual Notification", .str "unknown", "", "", "", true, none⟩

theorem runLegacy_store (nows : List Nat) :
    (runLegacy nows).store = ((nows.map legacyNotif).reverse).take 100 := by
  have key : ∀ (ns : List Nat) (st : ServerState),
      (ns.foldl (fun st t => (notifyHandler none none none none t "" st).2.1) st).store
        = (ns.map legacyNotif).foldl (fun acc n => appendStore n acc) st.store := by
    intro ns
    induction ns with
    | nil => intro st; rfl
    | cons t rest ih =>
        intro st
        simp only [List.foldl_cons, List.map_cons]
        rw [ih]
        rfl
  rw [runLegacy, key, show (ServerState.mk [] []).store = [] from rfl,
    foldl_appendStore _ [] (by simp)]
  simp

theorem store_ids_eq (nows : List Nat) :
    (runLegacy nows).store.map Notification.id = (nows.reverse).take 100 := by
  rw [runLegacy_store]
  simp only [← List.map_take, ← List.map_reverse, List.map_map]
  have h1 : Notification.id ∘ legacyNotif = id := rfl
  simp only [List.map_take, List.map_reverse, List.map_map, h1, List.map_id]

/-- C9 counterexample: two legacy ingestions in the same millisecond
(`Date.now()` returning 1000 twice) leave the store holding two
notifications with the same id, refuting distinctness. -/
theorem duplicate_ids_cex :
    (runLegacy [1000, 1000]).store.map Notification.id = [1000, 1000] ∧
    ¬ ((runLegacy [1000, 1000]).store.map Notification.id).Nodup := by
  exact ⟨rfl, by decide⟩

/-! ## Verifier and handler helper lemmas -/

theorem hexEncode_hmac_ne_empty (secret : String) (payload : List Nat) :
    hexEncode (hmacSha256 (strBytes secret) payload) ≠ "" := by
  cases hdg : hmacSha256 (strBytes secret) payload with
  | nil =>
      have hlen := hmacSha256_length (strBytes secret) payload
      rw [hdg] at hlen
      simp at hlen
  | cons b rest => exact hexEncode_ne_empty b rest

/-- The verifier accepts the hex encoding of the correct HMAC digest. -/
theorem verify_correct_sig (secret : String) (payload : List Nat) :
    verifyWebhookSignature secret payload
      (some (hexEncode (hmacSha256 (strBytes secret) payload))) = .ok true := by
  have hne := hexEncode_hmac_ne_empty secret payload
  have hrt : hexDecode (hexEncode (hmacSha256 (strBytes secret) payload)).data
      = hmacSha256 (strBytes secret) payload :=
    hexDecode_hexEncode _ (mem_hmacSha256_lt _ _)
  simp only [verifyWebhookSignature]
  rw [if_neg hne, hrt]
  simp [timingSafeEqual]

/-- The verifier returns `false` on a well-formed 32-byte signature that
differs from the correct digest. -/
theorem verify_wrong_sig (secret : String) (payload : List Nat) (s : String)
    (hs : s ≠ "") (hlen : (hexDecode s.data).length = 32)
    (hne : hexDecode s.data ≠ hmacSha256 (strBytes secret) payload) :
    verifyWebhookSignature secret payload (some s) = .ok false := by
  have hrt : hexDecode (hexEncode (hmacSha256 (strBytes secret) payload)).data
      = hmacSha256 (strBytes secret) payload :=
    hexDecode_hexEncode _ (mem_hmacSha256_lt _ _)
  simp only [verifyWebhookSignature]
  rw [if_neg hs, hrt]
  unfold timingSafeEqual
  rw [if_pos (by rw [hlen, hmacSha256_length])]
  simp [hne]

/-- On a signature that does not hex-decode to exactly 32 bytes,
`timingSafeEqual` throws and the verifier propagates the exception. -/
theorem verify_malformed (secret : String) (payload : List Nat) (s : String)
    (hs : s ≠ "") (hlen : (hexDecode s.data).length ≠ 32) :
    verifyWebhookSignature secret payload (some s) = .error () := by
  have hrt : hexDecode (hexEncode (hmacSha256 (strBytes secret) payload)).data
      = hmacSha256 (strBytes secret) payload :=
    hexDecode_hexEncode _ (mem_hmacSha256_lt _ _)
  simp only [verifyWebhookSignature]
  rw [if_neg hs, hrt]
  unfold timingSafeEqual
  rw [if_neg (by rw [hmacSha256_length]; exact hlen)]

/-- With a configured secret and a present, nonempty, malformed
signature header, the verifier throws and the exception escapes the
webhook handler, leaving the state untouched. -/
theorem webhookHandler_thrown_of_malformed (secret s : String)
    (payload : List Nat) (parsed : Option WebhookData) (nowMs : Nat)
    (nowIso : String) (st : ServerState) (hsecret : secret ≠ "") (hs : s ≠ "")
    (hlen : (hexDecode s.data).length ≠ 32) :
    webhookHandler secret (some s) payload parsed nowMs nowIso st
      = (.thrown, st, []) := by
  unfold webhookHandler
  rw [if_pos hsecret]
  dsimp only
  rw [if_pos hs, verify_malformed secret payload s hs hlen]

/-- With the signature header absent, the webhook handler is exactly the
post-authentication processing path, whatever the secret. -/
theorem webhookHandler_absent_sig (secret : String) (payload : List Nat)
    (parsed : Option WebhookData) (nowMs : Nat) (nowIso : String)
    (st : ServerState) :
    webhookHandler secret none payload parsed nowMs nowIso st
      = webhookProcess parsed nowMs nowIso st := by
  unfold webhookHandler
  split
  · rfl
  · rfl

theorem webhookProcess_none (nowMs : Nat) (nowIso : String) (st : ServerState) :
    webhookProcess none nowMs nowIso st = (.response 400 false none, st, []) := rfl

theorem webhookProcess_some (d : WebhookData) (nowMs : Nat) (nowIso : String)
    (st : ServerState) :
    webhookProcess (some d) nowMs nowIso st
      = (.response 200 true (some (mkWebhookNotif d nowMs nowIso)),
         ⟨appendStore (mkWebhookNotif d nowMs nowIso) st.store,
          (broadcastNotification st.clients).1⟩,
         (broadcastNotification st.clients).2) := rfl

/-- Every run of the webhook handler is a 401 rejection, an escaped
exception, or the processing path; the first two leave the state as is. -/
theorem webhookHandler_classify (secret : String) (sig : Option String)
    (payload : List Nat) (parsed : Option WebhookData) (nowMs : Nat)
    (nowIso : String) (st : ServerState) :
    webhookHandler secret sig payload parsed nowMs nowIso st
        = (.response 401 false none, st, []) ∨
    webhookHandler secret sig payload parsed nowMs nowIso st
        = (.thrown, st, []) ∨
    webhookHandler secret sig payload parsed nowMs nowIso st
        = webhookProcess parsed nowMs nowIso st := by
  unfold webhookHandler
  split
  · cases sig with
    | none => right; right; rfl
    | some s =>
        dsimp only
        split
        · cases hV : verifyWebhookSignature secret payload (some s) with
          | error e => cases e; right; left; rfl
          | ok b => cases b
                    · left; rfl
                    · right; right; rfl
        · right; right; rfl
  · right; right; rfl

/-- Each ingestion step either leaves the stored ids unchanged (a
rejected or throwing webhook request) or prepends the observed clock
reading and truncates to capacity. -/
theorem ingestStep_store_ids (st : ServerState) (ig : Ingest) (c : Nat)
    (iso : String) :
    (ingestStep st (ig, c, iso)).store.map Notification.id
      = st.store.map Notification.id ∨
    (ingestStep st (ig, c, iso)).store.map Notification.id
      = (c :: st.store.map Notification.id).take 100 := by
  cases ig with
  | legacy p e t m =>
      right
      exact appendStore_map_id _ st.store
  | webhook secret sig payload parsed =>
      rcases webhookHandler_classify secret sig payload parsed c iso st with
        h | h | h
      · left
        show ((webhookHandler secret sig payload parsed c iso st).2.1).store.map
          Notification.id = _
        rw [h]
      · left
        show ((webhookHandler secret sig payload parsed c iso st).2.1).store.map
          Notification.id = _
        rw [h]
      · cases parsed with
        | none =>
            left
            show ((webhookHandler secret sig payload none c iso
              st).2.1).store.map Notification.id = _
            rw [h, webhookProcess_none]
        | some d =>
            right
            show ((webhookHandler secret sig payload (some d) c iso
              st).2.1).store.map Notification.id = _
            rw [h, webhookProcess_some]
            exact appendStore_map_id _ st.store

/-- The ids in the store are a subsequence of the reversed clock-reading
sequence of the requests processed so far. -/
theorem runIngest_store_ids_sublist (reqs : List (Ingest × Nat × String)) :
    ∀ st : ServerState,
      List.Sublist ((reqs.foldl ingestStep st).store.map Notification.id)
        ((reqs.map (fun r => r.2.1)).reverse ++ st.store.map Notification.id) := by
  induction reqs with
  | nil =>
      intro st
      simp
  | cons r rest ih =>
      intro st
      obtain ⟨ig, c, iso⟩ := r
      simp only [List.foldl_cons, List.map_cons, List.reverse_cons,
        List.append_assoc, List.singleton_append]
      have h2 : List.Sublist ((ingestStep st (ig, c, iso)).store.map
          Notification.id) (c :: st.store.map Notification.id) := by
        rcases ingestStep_store_ids st ig c iso with h | h
        · rw [h]
          exact List.sublist_cons_self c _
        · rw [h]
          exact List.take_sublist _ _
      exact (ih (ingestStep st (ig, c, iso))).trans (h2.append_left _)

/-- C9 (amended): across any interleaving of legacy and webhook
ingestion requests, provided the `Date.now()` readings strictly
increase from one request to the next, the ids present in the store are
strictly decreasing front-to-back (the store is newest-first, so ids
increase in insertion order) and pairwise distinct; two requests
observing the same millisecond break this, as the counterexample shows. -/
theorem ids_strictly_increasing (reqs : List (Ingest × Nat × String))
    (h : (reqs.map (fun r => r.2.1)).Chain' (· < ·)) :
    ((runIngest reqs).store.map Notification.id).Pairwise (· > ·) ∧
    ((runIngest reqs).store.map Notification.id).Nodup := by
  have hsub := runIngest_store_ids_sublist reqs ⟨[], []⟩
  simp only [show (ServerState.mk [] []).store = [] from rfl, List.map_nil,
    List.append_nil] at hsub
  have hp : (reqs.map (fun r => r.2.1)).Pairwise (· < ·) :=
    List.chain'_iff_pairwise.mp h
  have hrev : ((reqs.map (fun r => r.2.1)).reverse).Pairwise (· > ·) :=
    List.pairwise_reverse.mpr hp
  have hpw := List.Pairwise.sublist hsub hrev
  exact ⟨hpw, hpw.imp (fun hgt => ne_of_gt hgt)⟩

/-- Witness for C9 (amended): a legacy request, a webhook request and
another legacy request at strictly increasing clock readings. -/
theorem ids_strictly_increasing_witness :
    (([(Ingest.legacy none none none none, 10, ""),
       (Ingest.webhook "railway-webhook-secret" none [] (some dSample), 20, "t"),
       (Ingest.legacy none none none none, 30, "")] :
        List (Ingest × Nat × String)).map (fun r => r.2.1)).Chain' (· < ·) ∧
    (((runIngest [(Ingest.legacy none none none none, 10, ""),
        (Ingest.webhook "railway-webhook-secret" none [] (some dSample), 20, "t"),
        (Ingest.legacy none none none none, 30, "")]).store.map
          Notification.id).Pairwise (· > ·) ∧
     ((runIngest [(Ingest.legacy none none none none, 10, ""),
        (Ingest.webhook "railway-webhook-secret" none [] (some dSample), 20, "t"),
        (Ingest.legacy none none none none, 30, "")]).store.map
          Notification.id).Nodup) :=
  ⟨by simp [List.chain'_cons],
   ids_strictly_increasing _ (by simp [List.chain'_cons])⟩

/-! ## Remaining claim theorems -/

/-- C3 counterexample: with the default secret configured and the
malformed (non-hex) signature header value "zz" on a parseable body, the
handler does not produce the 401 authentication-failure response — the
verifier's `timingSafeEqual` throws and the exception escapes. -/
theorem malformed_signature_throws_cex :
    webhookHandler "railway-webhook-secret" (some "zz") (strBytes "hello")
      (some ⟨"deployment.success", none, none, none⟩) 0 "" ⟨[], []⟩
      = (.thrown, ⟨[], []⟩, []) :=
  webhookHandler_thrown_of_malformed _ _ _ _ _ _ _ (by decide) (by decide)
    (by decide)

/-- C3 (amended): the verifier accepts exactly the hex-encoded
HMAC-SHA256 of the body keyed by the secret, returns `false` for any
other hex value decoding to the digest length, and on a malformed
signature (not decoding to exactly 32 bytes) throws instead of
returning — the exception escapes the webhook handler as an internal
error rather than the 401 authentication-failure response. -/
theorem signature_verification_spec :
    (∀ (secret : String) (payload : List Nat),
        verifyWebhookSignature secret payload
          (some (hexEncode (hmacSha256 (strBytes secret) payload))) = .ok true) ∧
    (∀ (secret : String) (payload : List Nat) (s : String),
        s ≠ "" → (hexDecode s.data).length = 32 →
        hexDecode s.data ≠ hmacSha256 (strBytes secret) payload →
        verifyWebhookSignature secret payload (some s) = .ok false) ∧
    (∀ (secret : String) (payload : List Nat) (s : String),
        s ≠ "" → (hexDecode s.data).length ≠ 32 →
        verifyWebhookSignature secret payload (some s) = .error ()) ∧
    (∀ (secret s : String) (payload : List Nat) (parsed : Option WebhookData)
        (nowMs : Nat) (nowIso : String) (st : ServerState),
        secret ≠ "" → s ≠ "" → (hexDecode s.data).length ≠ 32 →
        webhookHandler secret (some s) payload parsed nowMs nowIso st
          = (.thrown, st, [])) :=
  ⟨verify_correct_sig, verify_wrong_sig, verify_malformed,
   fun secret s payload parsed nowMs nowIso st h1 h2 h3 =>
     webhookHandler_thrown_of_malformed secret s payload parsed nowMs nowIso
       st h1 h2 h3⟩

/-- Witness for C3: the correct signature for body "hello" under the
default secret is accepted, and the malformed value "zz" throws. -/
theorem signature_verification_spec_witness :
    verifyWebhookSignature "railway-webhook-secret" (strBytes "hello")
      (some (hexEncode (hmacSha256 (strBytes "railway-webhook-secret")
        (strBytes "hello")))) = .ok true ∧
    verifyWebhookSignature "railway-webhook-secret" (strBytes "hello")
      (some "zz") = .error () :=
  ⟨signature_verification_spec.1 _ _,
   signature_verification_spec.2.2.1 _ _ _ (by decide) (by decide)⟩

/-- C4: whenever the webhook endpoint rejects with 401 (invalid
signature) or 400 (unparseable JSON), the store and client registry are
unchanged and no notification is delivered to any subscriber. -/
theorem reject_leaves_state_unchanged (secret : String) (sig : Option String)
    (payload : List Nat) (parsed : Option WebhookData) (nowMs : Nat)
    (nowIso : String) (st : ServerState) (status : Nat) (succ : Bool)
    (recv : Option Notification)
    (hres : (webhookHandler secret sig payload parsed nowMs nowIso st).1
              = .response status succ recv)
    (hstatus : status = 401 ∨ status = 400) :
    (webhookHandler secret sig payload parsed nowMs nowIso st).2.1 = st ∧
    (webhookHandler secret sig payload parsed nowMs nowIso st).2.2 = [] := by
  rcases webhookHandler_classify secret sig payload parsed nowMs nowIso st with
    h | h | h
  · rw [h]
    exact ⟨rfl, rfl⟩
  · rw [h] at hres
    simp at hres
  · cases parsed with
    | none =>
        rw [webhookProcess_none] at h
        rw [h]
        exact ⟨rfl, rfl⟩
    | some d =>
        rw [webhookProcess_some] at h
        rw [h] at hres
        simp at hres
        obtain ⟨h200, -⟩ := hres
        omega

/-- Witness for C4 at a concrete 400 rejection (unparseable body). -/
theorem reject_leaves_state_unchanged_witness :
    (webhookHandler "railway-webhook-secret" none (strBytes "not json") none 3
        "t" ⟨[], [⟨0, false⟩]⟩).1 = .response 400 false none ∧
    ((400 : Nat) = 401 ∨ (400 : Nat) = 400) ∧
    (webhookHandler "railway-webhook-secret" none (strBytes "not json") none 3
        "t" ⟨[], [⟨0, false⟩]⟩).2.1 = ⟨[], [⟨0, false⟩]⟩ ∧
    (webhookHandler "railway-webhook-secret" none (strBytes "not json") none 3
        "t" ⟨[], [⟨0, false⟩]⟩).2.2 = [] :=
  ⟨rfl, Or.inr rfl,
   reject_leaves_state_unchanged "railway-webhook-secret" none
     (strBytes "not json") none 3 "t" ⟨[], [⟨0, false⟩]⟩ 400 false none rfl
     (Or.inr rfl)⟩

/-- C7: a request with no signature header is never rejected for
authentication, even with a secret configured: the handler runs the
processing path unconditionally — parsing (400 only on unparseable
JSON), storing and broadcasting on success. -/
theorem absent_signature_not_rejected (secret : String) (payload : List Nat)
    (parsed : Option WebhookData) (nowMs : Nat) (nowIso : String)
    (st : ServerState) :
    webhookHandler secret none payload parsed nowMs nowIso st
      = webhookProcess parsed nowMs nowIso st ∧
    (parsed = none →
      webhookHandler secret none payload parsed nowMs nowIso st
        = (.response 400 false none, st, [])) ∧
    (∀ d, parsed = some d →
      (webhookHandler secret none payload parsed nowMs nowIso st).1
        = .response 200 true (some (mkWebhookNotif d nowMs nowIso)) ∧
      (webhookHandler secret none payload parsed nowMs nowIso st).2.1.store
        = appendStore (mkWebhookNotif d nowMs nowIso) st.store) := by
  refine ⟨webhookHandler_absent_sig secret payload parsed nowMs nowIso st,
    ?_, ?_⟩
  · intro h
    subst h
    rw [webhookHandler_absent_sig, webhookProcess_none]
  · intro d h
    subst h
    rw [webhookHandler_absent_sig, webhookProcess_some]
    exact ⟨rfl, rfl⟩

/-- Witness for C7: an unsigned request with a configured secret is
processed and answered 200. -/
theorem absent_signature_not_rejected_witness :
    (webhookHandler "railway-webhook-secret" none [] (some dSample) 5 "t"
        ⟨[], []⟩).1 = .response 200 true (some (mkWebhookNotif dSample 5 "t")) ∧
    (webhookHandler "railway-webhook-secret" none [] (some dSample) 5 "t"
        ⟨[], []⟩).2.1.store = appendStore (mkWebhookNotif dSample 5 "t") [] :=
  (absent_signature_not_rejected "railway-webhook-secret" [] (some dSample) 5
    "t" ⟨[], []⟩).2.2 dSample rfl

/-- C10: the verifier itself fails closed on a missing credential —
absent or empty signature yields `false` regardless of body and secret —
and with the header absent the handler's outcome is independent of the
secret and the raw body, because the guard short-circuits before ever
consulting the verifier. -/
theorem verifier_rejects_missing_signature :
    (∀ (secret : String) (payload : List Nat),
        verifyWebhookSignature secret payload none = .ok false ∧
        verifyWebhookSignature secret payload (some "") = .ok false) ∧
    (∀ (secret : String) (payload payload2 : List Nat)
        (parsed : Option WebhookData) (nowMs : Nat) (nowIso : String)
        (st : ServerState),
        webhookHandler secret none payload parsed nowMs nowIso st
          = webhookHandler "" none payload2 parsed nowMs nowIso st) := by
  refine ⟨fun secret payload => ⟨rfl, rfl⟩,
    fun secret payload payload2 parsed nowMs nowIso st => ?_⟩
  rw [webhookHandler_absent_sig, webhookHandler_absent_sig]

/-- C5 counterexample: the provider type "constructor" is outside the
fixed lookup table, yet it does not pass through unchanged as the kind:
the bracket lookup finds the truthy constructor property inherited from
`Object.prototype`, so `RAILWAY_EVENT_MAP[type] || type` evaluates to
that inherited value, not to the type string. -/
theorem proto_key_not_passed_through_cex :
    railwayEventMapOwn "constructor" = none ∧
    normalizeEvent "constructor" = EventKind.inheritedVal "constructor" ∧
    normalizeEvent "constructor" ≠ EventKind.str "constructor" := by
  refine ⟨rfl, rfl, ?_⟩
  decide

/-- C5 (amended): the three specified concrete mappings hold, and a
provider type outside the fixed lookup table passes through unchanged
as the kind unless it is an `Object.prototype` property name — for
those, the prototype-chain lookup yields the truthy inherited value,
which becomes the kind instead of the type string. The default message
`<type> in production` holds for every type outside the table when the
environment is absent. -/
theorem event_mapper_examples :
    (normalizeEvent "deployment.success" = .str "deployment_success" ∧
     generateEventMessage "deployment.success"
       (some ⟨none, none, some "https://x"⟩) (some ⟨some "staging"⟩)
       = "Successfully deployed to staging at https://x") ∧
    (normalizeEvent "deployment.crashed" = .str "service_crash" ∧
     generateEventMessage "deployment.crashed" none (some ⟨none⟩)
       = "Service crashed in production") ∧
    (normalizeEvent "unknown.event" = .str "unknown.event" ∧
     generateEventMessage "unknown.event" none none
       = "unknown.event in production") ∧
    (∀ t : String, railwayEventMapOwn t = none → t ∉ objectProtoProps →
      normalizeEvent t = .str t) ∧
    (∀ t : String, railwayEventMapOwn t = none → t ∈ objectProtoProps →
      normalizeEvent t = .inheritedVal t) ∧
    (∀ t : String, railwayEventMapOwn t = none →
      generateEventMessage t none none = t ++ " in production") := by
  refine ⟨⟨by decide, by decide⟩, ⟨by decide, by decide⟩,
    ⟨by decide, by decide⟩, ?_, ?_, ?_⟩
  · intro t h hmem
    unfold normalizeEvent railwayEventMap
    rw [h]
    dsimp only
    rw [if_neg hmem]
  · intro t h hmem
    unfold normalizeEvent railwayEventMap
    rw [h]
    dsimp only
    rw [if_pos hmem]
  · intro t h
    unfold railwayEventMapOwn at h
    split_ifs at h with h1 h2 h3 h4 h5 h6 h7 h8 h9 h10
    unfold generateEventMessage
    rw [if_neg h1, if_neg h2, if_neg h3, if_neg h4, if_neg h5, if_neg h6,
      if_neg h7, if_neg h8, if_neg h9, if_neg h10]
    show (t ++ " in ") ++ "production" = t ++ " in production"
    rw [String.append_assoc]
    congr 1

/-- Witness for C5's quantified conjuncts: pass-through at the
non-prototype type "unknown.event" and the deviation at "constructor". -/
theorem event_mapper_examples_witness :
    normalizeEvent "unknown.event" = .str "unknown.event" ∧
    normalizeEvent "constructor" = .inheritedVal "constructor" ∧
    generateEventMessage "unknown.event" none none
      = "unknown.event" ++ " in production" :=
  ⟨event_mapper_examples.2.2.2.1 "unknown.event" (by decide) (by decide),
   event_mapper_examples.2.2.2.2.1 "constructor" (by decide) (by decide),
   event_mapper_examples.2.2.2.2.2 "unknown.event" (by decide)⟩

/-- C6 counterexample: subscribing while the store is empty produces
only the `connected` frame — no `history` frame is written at all,
refuting the claim that a history message always follows. -/
theorem empty_store_no_history_cex :
    (subscribeHandler ⟨[], []⟩ 0).2 = [Frame.connected 1] := rfl

/-- C6 (amended): a new subscriber is registered and first receives the
`connected` frame carrying the post-registration subscriber count; when
the store is nonempty this is followed by exactly one `history` frame
holding the `min 5 size` most recent notifications newest-first (the
store's own order); when the store is empty no history frame is sent.
Both frames are written during the subscribe call, before any later
publish. -/
theorem subscribe_greeting (st : ServerState) (newId : Nat) :
    (subscribeHandler st newId).1.clients = st.clients ++ [⟨newId, false⟩] ∧
    (subscribeHandler st newId).1.store = st.store ∧
    (st.store ≠ [] →
      (subscribeHandler st newId).2
        = [Frame.connected (st.clients.length + 1),
           Frame.history (st.store.take 5)] ∧
      (st.store.take 5).length = min 5 st.store.length) ∧
    (st.store = [] →
      (subscribeHandler st newId).2
        = [Frame.connected (st.clients.length + 1)]) := by
  refine ⟨rfl, rfl, ?_, ?_⟩
  · intro h
    have hpos : st.store.length > 0 := List.length_pos.mpr h
    constructor
    · simp [subscribeHandler, hpos]
    · simp [List.length_take]
  · intro h
    simp [subscribeHandler, h]

/-- Witness for C6 (amended) at a one-notification store. -/
theorem subscribe_greeting_witness :
    ([sampleNotif 0] ≠ ([] : List Notification)) ∧
    ((subscribeHandler ⟨[sampleNotif 0], []⟩ 9).2
        = [Frame.connected 1, Frame.history [sampleNotif 0]] ∧
     (([sampleNotif 0] : List Notification).take 5).length
        = min 5 [sampleNotif 0].length) :=
  ⟨by simp,
   by simpa using (subscribe_greeting ⟨[sampleNotif 0], []⟩ 9).2.2.1 (by simp)⟩

/-- C8: the legacy endpoint always answers 200 with `success: true` for
any method-independent combination of optional query parameters, and
with no parameters at all the stored and echoed notification defaults to
project "Manual Notification", event "unknown", `isLegacy = true`. -/
theorem legacy_never_fails (project event timestamp message : Option String)
    (nowMs : Nat) (nowIso : String) (st : ServerState) :
    ((notifyHandler project event timestamp message nowMs nowIso st).1.status
        = 200 ∧
     (notifyHandler project event timestamp message nowMs nowIso st).1.success
        = true) ∧
    (notifyHandler none none none none nowMs nowIso st).1.received
      = { id := nowMs, project := "Manual Notification",
          event := .str "unknown", timestamp := nowIso, message := "",
          receivedAt := nowIso, isLegacy := true, railwayData := none } :=
  ⟨⟨rfl, rfl⟩, rfl⟩

end DeployAlert
